import Mathlib

/-!
Verification of the bump-pointer arena allocator in `src/lib.rs`
(`BumpAlloc`).  Addresses, sizes and alignments are modelled as natural
numbers; the Rust `usize` bitwise complement `!x` is modelled as XOR with
the all-ones 64-bit word.  The backing-allocator handle (`build_alloc`)
carries no data used by any operation and is modelled as a function
argument at construction only.
-/

/-- Number of values of `usize` on the 64-bit target: `2 ^ 64`. -/
def wordSize : Nat := 2 ^ 64

/-- Bitwise NOT of a `usize` value: XOR with the all-ones word.
Models Rust `!x` for `x : usize`. -/
def usizeNot (x : Nat) : Nat := (wordSize - 1) ^^^ x

/-- Layout type `NonZeroLayout` from `alloc_wg`: a size and an alignment.  The type
invariant in Rust (size nonzero, alignment a nonzero power of two) is
carried as hypotheses where proofs need it. -/
structure NonZeroLayout where
  size : Nat
  align : Nat
deriving DecidableEq

/-- The arena state, struct `BumpAlloc` in `src/lib.rs`: `data` is the
address of the backing block, `layout` the block's layout (its size is the
capacity; the block is allocated with alignment 1), `ptr` the bump cursor
held in the `Cell`. -/
structure BumpAlloc where
  data : Nat
  layout : NonZeroLayout
  ptr : Nat
deriving DecidableEq

/-- Error type `BumpAllocErr` from `src/lib.rs`: construction errors. -/
inductive BumpAllocErr where
  | zeroCapacity
  | allocError (layout : NonZeroLayout)
deriving DecidableEq

/-- Error type `AllocErr` from `src/lib.rs`: the error type of the arena's
`AllocRef::alloc`. -/
structure AllocErr
deriving DecidableEq

namespace BumpAlloc

/-- Constructor `try_with_capacity_in` from `src/lib.rs`: fail with `ZeroCapacity` on a
zero capacity; otherwise ask the backing allocator `a` for a block of
`capacity` bytes with alignment 1 and start the cursor at
`data + layout.size`.  The backing allocator is modelled as a function from
the requested layout to a base address or a failure. -/
def try_with_capacity_in (capacity : Nat) (a : NonZeroLayout → Except Unit Nat) :
    Except BumpAllocErr BumpAlloc :=
  if capacity = 0 then
    .error .zeroCapacity
  else
    let layout : NonZeroLayout := ⟨capacity, 1⟩
    match a layout with
    | .error _ => .error (.allocError layout)
    | .ok data => .ok { data := data, layout := layout, ptr := data + layout.size }

/-- Method `AllocRef::alloc` for `&BumpAlloc` (`src/lib.rs`): compute
`ptr.checked_sub(layout.size())` (fail on underflow), round the result down
to the requested alignment with `& !(align - 1)`, fail if the rounded value
is below the block start, otherwise store it in the cursor and return it.
The Rust method mutates through a `Cell`; here it returns the result
together with the state after the call (unchanged on failure). -/
def alloc (s : BumpAlloc) (layout : NonZeroLayout) :
    Except AllocErr Nat × BumpAlloc :=
  let ptr := s.ptr
  if ptr < layout.size then
    (.error ⟨⟩, s)
  else
    let new_ptr := ptr - layout.size
    -- Round down to the requested alignment.
    let new_ptr := new_ptr &&& usizeNot (layout.align - 1)
    let start := s.data
    if new_ptr < start then
      -- Not enough capacity
      (.error ⟨⟩, s)
    else
      (.ok new_ptr, { s with ptr := new_ptr })

/-- Method `reset_unchecked` from `src/lib.rs`: rewind the cursor to
`data + layout.size`. -/
def reset_unchecked (s : BumpAlloc) : BumpAlloc :=
  { s with ptr := s.data + s.layout.size }

/-- Method `reset` from `src/lib.rs`: delegates to `reset_unchecked`. -/
def reset (s : BumpAlloc) : BumpAlloc :=
  reset_unchecked s

/-- Method `DeallocRef::dealloc` for `&BumpAlloc` (`src/lib.rs`): a no-op. -/
def dealloc (s : BumpAlloc) (_ptr : Nat) (_layout : NonZeroLayout) : BumpAlloc :=
  s

/-- Method `ReallocRef::realloc` for `&BumpAlloc` (`src/lib.rs`): ignores the old
pointer and the old layout and calls `alloc` with the new layout. -/
def realloc (s : BumpAlloc) (_ptr : Nat) (_old_layout new_layout : NonZeroLayout) :
    Except AllocErr Nat × BumpAlloc :=
  alloc s new_layout

/-- Run a list of allocation requests in order, collecting each call's
returned address paired with its requested size; fails as soon as one call
fails. -/
def allocSeq (s : BumpAlloc) : List NonZeroLayout → Except AllocErr (List (Nat × Nat) × BumpAlloc)
  | [] => .ok ([], s)
  | l :: ls =>
    match alloc s l with
    | (.error e, _) => .error e
    | (.ok addr, s1) =>
      match allocSeq s1 ls with
      | .error e => .error e
      | .ok (rest, s2) => .ok ((addr, l.size) :: rest, s2)

/-- The cursor invariant of the arena (spec section 3): the cursor stays
between the block's base address and its one-past-the-end address. -/
abbrev CursorInv (s : BumpAlloc) : Prop :=
  s.data ≤ s.ptr ∧ s.ptr ≤ s.data + s.layout.size

end BumpAlloc

open BumpAlloc

/-- The complement of the low-bits mask of an alignment `2 ^ k` is the word
with ones exactly in bit positions `k` to `63`. -/
lemma usizeNot_two_pow_sub_one (k : Nat) (hk : k ≤ 64) :
    usizeNot (2 ^ k - 1) = (2 ^ (64 - k) - 1) <<< k := by
  apply Nat.eq_of_testBit_eq
  intro i
  simp only [usizeNot, wordSize, Nat.testBit_xor, Nat.testBit_two_pow_sub_one,
    Nat.testBit_shiftLeft, ge_iff_le]
  by_cases h1 : i < 64 <;> by_cases h2 : i < k <;> by_cases h3 : k ≤ i <;>
    simp [h1, h2, h3] <;> omega

/-- Bitwise AND with the complement of `2 ^ k - 1` rounds a word-sized
value down to the nearest multiple of `2 ^ k`. -/
lemma land_usizeNot (n k : Nat) (hn : n < wordSize) (hk : k ≤ 64) :
    n &&& usizeNot (2 ^ k - 1) = 2 ^ k * (n / 2 ^ k) := by
  rw [usizeNot_two_pow_sub_one k hk]
  have hrhs : 2 ^ k * (n / 2 ^ k) = (n >>> k) <<< k := by
    rw [Nat.shiftRight_eq_div_pow, Nat.shiftLeft_eq, Nat.mul_comm]
  rw [hrhs]
  apply Nat.eq_of_testBit_eq
  intro i
  simp only [Nat.testBit_land, Nat.testBit_shiftLeft, Nat.testBit_shiftRight,
    Nat.testBit_two_pow_sub_one, ge_iff_le]
  by_cases h3 : k ≤ i
  · have hki : k + (i - k) = i := by omega
    rw [hki]
    by_cases h1 : i < 64
    · simp [h3]
      omega
    · have : n.testBit i = false := by
        apply Nat.testBit_lt_two_pow
        calc n < 2 ^ 64 := hn
          _ ≤ 2 ^ i := Nat.pow_le_pow_right (by omega) (by omega)
      simp [this]
  · simp [h3]

/-- Unfolded form of `alloc`: the guards and results written out. -/
lemma alloc_eq (s : BumpAlloc) (l : NonZeroLayout) :
    alloc s l =
      if s.ptr < l.size then (.error ⟨⟩, s)
      else if (s.ptr - l.size) &&& usizeNot (l.align - 1) < s.data then (.error ⟨⟩, s)
      else (.ok ((s.ptr - l.size) &&& usizeNot (l.align - 1)),
        { s with ptr := (s.ptr - l.size) &&& usizeNot (l.align - 1) }) := rfl

/-- A successful `alloc` returns an address at or above the block base,
whose range of the requested size ends at or below the old cursor, and the
new state differs from the old only in the cursor, which holds the
returned address. -/
lemma alloc_ok_facts (s : BumpAlloc) (l : NonZeroLayout) (addr : Nat)
    (h : (alloc s l).1 = .ok addr) :
    s.data ≤ addr ∧ addr + l.size ≤ s.ptr ∧ (alloc s l).2 = { s with ptr := addr } := by
  rw [alloc_eq] at h ⊢
  split_ifs at h ⊢ with h1 h2
  have hle : (s.ptr - l.size) &&& usizeNot (l.align - 1) ≤ s.ptr - l.size :=
    Nat.and_le_left
  obtain rfl : (s.ptr - l.size) &&& usizeNot (l.align - 1) = addr := by simpa using h
  exact ⟨by omega, by omega, rfl⟩

/-- C1: for every arena state and every allocation request with positive
size and power-of-two alignment, a successful `alloc` returns the address
obtained by computing `cursor - size` and rounding it down to the nearest
multiple of the alignment (bitwise AND with the complement of
`alignment - 1`), and sets the cursor to exactly that returned address. -/
theorem alloc_success_returns_rounded_cursor (s : BumpAlloc) (l : NonZeroLayout)
    (k : Nat) (_hsz : 0 < l.size) (hal : l.align = 2 ^ k) (hk : k ≤ 64)
    (hp : s.ptr < wordSize) (addr : Nat) (s1 : BumpAlloc)
    (h : alloc s l = (.ok addr, s1)) :
    addr = (s.ptr - l.size) &&& usizeNot (l.align - 1)
      ∧ addr = l.align * ((s.ptr - l.size) / l.align)
      ∧ s1.ptr = addr := by
  have h1 : (alloc s l).1 = .ok addr := by rw [h]
  have h2 : (alloc s l).2 = s1 := by rw [h]
  have hmask := land_usizeNot (s.ptr - l.size) k
    (lt_of_le_of_lt (Nat.sub_le _ _) hp) hk
  obtain ⟨hbase, hrange, hstate⟩ := alloc_ok_facts s l addr h1
  have hptr : s1.ptr = addr := by rw [← h2, hstate]
  have haddr : addr = (s.ptr - l.size) &&& usizeNot (l.align - 1) := by
    rw [alloc_eq] at h1
    split_ifs at h1 with hg1 hg2
    obtain rfl : (s.ptr - l.size) &&& usizeNot (l.align - 1) = addr := by simpa using h1
    rfl
  refine ⟨haddr, ?_, hptr⟩
  rw [haddr, hal]
  exact hmask

/-- Witness for C1 at a concrete input: a 16-byte arena based at address
100, allocating 5 bytes at alignment 4 from cursor 116 yields address 108
and cursor 108. -/
theorem alloc_success_returns_rounded_cursor_witness :
    (108 : Nat) = (116 - 5) &&& usizeNot (4 - 1)
      ∧ (108 : Nat) = 4 * ((116 - 5) / 4)
      ∧ (⟨100, ⟨16, 1⟩, 108⟩ : BumpAlloc).ptr = 108 :=
  alloc_success_returns_rounded_cursor ⟨100, ⟨16, 1⟩, 116⟩ ⟨5, 4⟩ 2 (by decide)
    rfl (by decide) (by decide) 108 ⟨100, ⟨16, 1⟩, 108⟩ rfl

/-- C3: every address returned by a successful `alloc` with power-of-two
alignment is a multiple of that alignment. -/
theorem alloc_success_address_aligned (s : BumpAlloc) (l : NonZeroLayout)
    (k : Nat) (hal : l.align = 2 ^ k) (hk : k ≤ 64) (hp : s.ptr < wordSize)
    (addr : Nat) (h : (alloc s l).1 = .ok addr) :
    addr % l.align = 0 := by
  have hmask := land_usizeNot (s.ptr - l.size) k
    (lt_of_le_of_lt (Nat.sub_le _ _) hp) hk
  rw [alloc_eq] at h
  split_ifs at h with hg1 hg2
  obtain rfl : (s.ptr - l.size) &&& usizeNot (l.align - 1) = addr := by simpa using h
  rw [hal, hmask, Nat.mul_mod_right]

/-- Witness for C3 at a concrete input: allocating 6 bytes at alignment 8
from cursor 116 in a 16-byte arena based at 100 returns 104, a multiple
of 8. -/
theorem alloc_success_address_aligned_witness : (104 : Nat) % 8 = 0 :=
  alloc_success_address_aligned ⟨100, ⟨16, 1⟩, 116⟩ ⟨6, 8⟩ 3 rfl (by decide)
    (by decide) 104 rfl

/-- C5: `alloc` fails exactly when `cursor - size` underflows below
address 0, or lands below the base, or the candidate rounded down to the
alignment is below the base; in every other case it succeeds. -/
theorem alloc_error_iff (s : BumpAlloc) (l : NonZeroLayout) :
    (alloc s l).1 = .error ⟨⟩ ↔
      s.ptr < l.size ∨ s.ptr - l.size < s.data
        ∨ (s.ptr - l.size) &&& usizeNot (l.align - 1) < s.data := by
  have hle : (s.ptr - l.size) &&& usizeNot (l.align - 1) ≤ s.ptr - l.size :=
    Nat.and_le_left
  rw [alloc_eq]
  split_ifs with hg1 hg2
  · simp only [true_iff]
    exact Or.inl hg1
  · simp only [true_iff]
    exact Or.inr (Or.inr hg2)
  · simp only [false_iff]
    omega

/-- C6: a failed `alloc` leaves the arena state unchanged; a successful
`alloc` changes only the cursor, which receives the returned address. -/
theorem alloc_error_keeps_state_ok_sets_cursor (s : BumpAlloc) (l : NonZeroLayout) :
    ((alloc s l).1 = .error ⟨⟩ → (alloc s l).2 = s)
      ∧ ∀ addr : Nat, (alloc s l).1 = .ok addr →
          (alloc s l).2 = { s with ptr := addr } := by
  rw [alloc_eq]
  split_ifs with hg1 hg2
  · exact ⟨fun _ => rfl, fun addr h => absurd h (by simp)⟩
  · exact ⟨fun _ => rfl, fun addr h => absurd h (by simp)⟩
  · refine ⟨fun h => absurd h (by simp), fun addr h => ?_⟩
    obtain rfl : (s.ptr - l.size) &&& usizeNot (l.align - 1) = addr := by simpa using h
    rfl

/-- Witness for C6 at concrete inputs: a 32-byte request fails in a
16-byte arena and leaves the state unchanged; a 4-byte request succeeds
and moves only the cursor, from 116 to 112. -/
theorem alloc_error_keeps_state_ok_sets_cursor_witness :
    (alloc ⟨100, ⟨16, 1⟩, 116⟩ ⟨32, 1⟩).2 = ⟨100, ⟨16, 1⟩, 116⟩
      ∧ (alloc ⟨100, ⟨16, 1⟩, 116⟩ ⟨4, 1⟩).2 = ⟨100, ⟨16, 1⟩, 112⟩ :=
  ⟨(alloc_error_keeps_state_ok_sets_cursor ⟨100, ⟨16, 1⟩, 116⟩ ⟨32, 1⟩).1 rfl,
    (alloc_error_keeps_state_ok_sets_cursor ⟨100, ⟨16, 1⟩, 116⟩ ⟨4, 1⟩).2 112 rfl⟩

/-- C8: construction with capacity 0 fails with `ZeroCapacity` for every
backing allocator; the result is the same whatever the allocator does, so
the allocator is never consulted. -/
theorem try_with_capacity_zero_fails (a : NonZeroLayout → Except Unit Nat) :
    try_with_capacity_in 0 a = .error .zeroCapacity := rfl

/-- C9: `realloc` produces exactly the same result and resulting arena
state as a plain `alloc` with the new layout, whatever the old pointer and
old layout were. -/
theorem realloc_eq_alloc (s : BumpAlloc) (p : Nat)
    (old_layout new_layout : NonZeroLayout) :
    realloc s p old_layout new_layout = alloc s new_layout := rfl

/-- C10: on every successful `alloc` with positive size and power-of-two
alignment, the cursor decreases by at least `size` and by strictly less
than `size + align`; for alignment 1 it decreases by exactly `size`. -/
theorem alloc_success_cursor_decrease (s : BumpAlloc) (l : NonZeroLayout)
    (k : Nat) (_hsz : 0 < l.size) (hal : l.align = 2 ^ k) (hk : k ≤ 64)
    (hp : s.ptr < wordSize) (addr : Nat) (h : (alloc s l).1 = .ok addr) :
    (alloc s l).2.ptr ≤ s.ptr
      ∧ l.size ≤ s.ptr - (alloc s l).2.ptr
      ∧ s.ptr - (alloc s l).2.ptr < l.size + l.align
      ∧ (l.align = 1 → s.ptr - (alloc s l).2.ptr = l.size) := by
  have hmask := land_usizeNot (s.ptr - l.size) k
    (lt_of_le_of_lt (Nat.sub_le _ _) hp) hk
  have hdm := Nat.div_add_mod (s.ptr - l.size) (2 ^ k)
  have hml : (s.ptr - l.size) % 2 ^ k < 2 ^ k :=
    Nat.mod_lt _ (Nat.two_pow_pos k)
  obtain ⟨hbase, hrange, hstate⟩ := alloc_ok_facts s l addr h
  have hptr : (alloc s l).2.ptr = addr := by rw [hstate]
  have haddr : addr = 2 ^ k * ((s.ptr - l.size) / 2 ^ k) := by
    rw [alloc_eq] at h
    split_ifs at h with hg1 hg2
    obtain rfl : (s.ptr - l.size) &&& usizeNot (l.align - 1) = addr := by simpa using h
    rw [hal, hmask]
  rw [hptr, hal]
  omega

/-- Witness for C10 at a concrete input: allocating 5 bytes at alignment 4
from cursor 116 moves the cursor to 108, a decrease of 8, with
5 ≤ 8 < 5 + 4. -/
theorem alloc_success_cursor_decrease_witness :
    (alloc ⟨100, ⟨16, 1⟩, 116⟩ ⟨5, 4⟩).2.ptr ≤ 116
      ∧ (5 : Nat) ≤ 116 - (alloc ⟨100, ⟨16, 1⟩, 116⟩ ⟨5, 4⟩).2.ptr
      ∧ (116 : Nat) - (alloc ⟨100, ⟨16, 1⟩, 116⟩ ⟨5, 4⟩).2.ptr < 5 + 4
      ∧ ((4 : Nat) = 1 → 116 - (alloc ⟨100, ⟨16, 1⟩, 116⟩ ⟨5, 4⟩).2.ptr = 5) :=
  alloc_success_cursor_decrease ⟨100, ⟨16, 1⟩, 116⟩ ⟨5, 4⟩ 2 (by decide) rfl
    (by decide) (by decide) 108 rfl

/-- An `alloc` call, successful or not, keeps the cursor between the block
base and the block end. -/
lemma inv_alloc (s : BumpAlloc) (l : NonZeroLayout) (h : CursorInv s) :
    CursorInv (alloc s l).2 := by
  rw [alloc_eq]
  split_ifs with hg1 hg2
  · exact h
  · exact h
  · have hle : (s.ptr - l.size) &&& usizeNot (l.align - 1) ≤ s.ptr - l.size :=
      Nat.and_le_left
    obtain ⟨hi1, hi2⟩ := h
    constructor
    · show s.data ≤ (s.ptr - l.size) &&& usizeNot (l.align - 1)
      omega
    · show (s.ptr - l.size) &&& usizeNot (l.align - 1) ≤ s.data + s.layout.size
      omega

/-- C4: the invariant `base ≤ cursor ≤ base + capacity` holds after
construction and is preserved by `alloc` (success or failure), `reset`,
`reset_unchecked`, `dealloc` and `realloc`. -/
theorem invariant_all_operations :
    (∀ cap a s, try_with_capacity_in cap a = .ok s → CursorInv s)
      ∧ (∀ s l, CursorInv s → CursorInv (alloc s l).2)
      ∧ (∀ s, CursorInv (reset s))
      ∧ (∀ s, CursorInv (reset_unchecked s))
      ∧ (∀ s p l, CursorInv s → CursorInv (dealloc s p l))
      ∧ (∀ s p lold lnew, CursorInv s → CursorInv (realloc s p lold lnew).2) := by
  refine ⟨?_, fun s l h => inv_alloc s l h, ?_, ?_, fun s p l h => h,
    fun s p lold lnew h => inv_alloc s lnew h⟩
  · intro cap a s h
    simp only [try_with_capacity_in] at h
    split_ifs at h with hc
    rcases ha : a ⟨cap, 1⟩ with e | d
    · rw [ha] at h
      simp at h
    · rw [ha] at h
      obtain rfl : ({ data := d, layout := ⟨cap, 1⟩, ptr := d + cap } : BumpAlloc) = s := by
        simpa using h
      exact ⟨Nat.le_add_right d cap, Nat.le_refl _⟩
  · intro s
    exact ⟨Nat.le_add_right _ _, Nat.le_refl _⟩
  · intro s
    exact ⟨Nat.le_add_right _ _, Nat.le_refl _⟩

/-- Witness for C4 at concrete inputs: the invariant after a successful
construction and after a concrete `alloc` call. -/
theorem invariant_all_operations_witness :
    BumpAlloc.CursorInv (⟨100, ⟨16, 1⟩, 116⟩ : BumpAlloc)
      ∧ BumpAlloc.CursorInv (alloc ⟨100, ⟨16, 1⟩, 116⟩ ⟨4, 1⟩).2 :=
  ⟨invariant_all_operations.1 16 (fun _ => .ok 100) ⟨100, ⟨16, 1⟩, 116⟩ rfl,
    invariant_all_operations.2.1 ⟨100, ⟨16, 1⟩, 116⟩ ⟨4, 1⟩ ⟨by decide, by decide⟩⟩

/-- Facts about a successful run of `allocSeq`: the base and layout are
unchanged, the cursor never increases, every returned range lies between
the base and the starting cursor, and the ranges descend strictly: each
later range ends at or before each earlier range starts. -/
lemma allocSeq_facts : ∀ (reqs : List NonZeroLayout) (s : BumpAlloc)
    (res : List (Nat × Nat)) (s1 : BumpAlloc),
    allocSeq s reqs = .ok (res, s1) →
    s1.data = s.data ∧ s1.layout = s.layout ∧ s1.ptr ≤ s.ptr
      ∧ (∀ p ∈ res, s.data ≤ p.1 ∧ p.1 + p.2 ≤ s.ptr)
      ∧ res.Pairwise (fun p q => q.1 + q.2 ≤ p.1)
  | [], s, res, s1, h => by
    simp only [allocSeq] at h
    obtain ⟨rfl, rfl⟩ : [] = res ∧ s = s1 := by simpa using h
    simp
  | l :: ls, s, res, s1, h => by
    simp only [allocSeq] at h
    split at h
    · simp at h
    · rename_i addr st ha
      split at h
      · simp at h
      · rename_i rest s2 hs
        obtain ⟨rfl, rfl⟩ : (addr, l.size) :: rest = res ∧ s2 = s1 := by simpa using h
        have ha1 : (alloc s l).1 = .ok addr := by rw [ha]
        have ha2 : (alloc s l).2 = st := by rw [ha]
        obtain ⟨hbase, hrange, hstate⟩ := alloc_ok_facts s l addr ha1
        have hst : st = { s with ptr := addr } := by rw [← ha2, hstate]
        subst hst
        obtain ⟨ih1, ih2, ih3, ih4, ih5⟩ := allocSeq_facts ls _ rest s2 hs
        dsimp only at ih1 ih2 ih3 ih4
        refine ⟨ih1, ih2, by omega, ?_, ?_⟩
        · intro p hp
          rcases List.mem_cons.mp hp with rfl | hp2
          · exact ⟨hbase, hrange⟩
          · obtain ⟨hm1, hm2⟩ := ih4 p hp2
            exact ⟨hm1, by omega⟩
        · refine List.Pairwise.cons ?_ ih5
          intro q hq
          exact (ih4 q hq).2

/-- C2: for any sequence of successful `alloc` calls started from a state
whose cursor is at most `base + capacity` (as after construction or a
reset), the returned ranges `[address, address + size)` are pairwise
disjoint and each lies within `[base, base + capacity)`. -/
theorem allocSeq_disjoint_within_bounds (s : BumpAlloc) (reqs : List NonZeroLayout)
    (_hsz : ∀ l ∈ reqs, 0 < l.size)
    (hcur : s.ptr ≤ s.data + s.layout.size)
    (res : List (Nat × Nat)) (s1 : BumpAlloc)
    (h : allocSeq s reqs = .ok (res, s1)) :
    (∀ p ∈ res, s.data ≤ p.1 ∧ p.1 + p.2 ≤ s.data + s.layout.size)
      ∧ res.Pairwise (fun p q => q.1 + q.2 ≤ p.1 ∨ p.1 + p.2 ≤ q.1) := by
  obtain ⟨-, -, -, hmem, hpw⟩ := allocSeq_facts reqs s res s1 h
  refine ⟨fun p hp => ?_, hpw.imp fun hle => Or.inl hle⟩
  obtain ⟨h1, h2⟩ := hmem p hp
  exact ⟨h1, le_trans h2 hcur⟩

/-- Witness for C2 at a concrete input: two 4-byte allocations from a
16-byte arena based at 100 return the disjoint in-bounds ranges
`[112, 116)` and `[108, 112)`. -/
theorem allocSeq_disjoint_within_bounds_witness :
    (∀ p ∈ [((112 : Nat), (4 : Nat)), (108, 4)], (100 : Nat) ≤ p.1 ∧ p.1 + p.2 ≤ 100 + 16)
      ∧ List.Pairwise (fun p q => q.1 + q.2 ≤ p.1 ∨ p.1 + p.2 ≤ q.1)
          [((112 : Nat), (4 : Nat)), (108, 4)] :=
  allocSeq_disjoint_within_bounds ⟨100, ⟨16, 1⟩, 116⟩ [⟨4, 1⟩, ⟨4, 1⟩] (by decide)
    (by decide) [(112, 4), (108, 4)] ⟨100, ⟨16, 1⟩, 108⟩ rfl

/-- C7: after a `reset`, the next `alloc` call behaves exactly as the
first `alloc` call made right after construction: for a state reached from
a constructed arena by any successful allocation sequence, `alloc` after
`reset` returns the same result (and state) as `alloc` on the fresh
arena. -/
theorem reset_replays_first_alloc (cap : Nat) (a : NonZeroLayout → Except Unit Nat)
    (s0 : BumpAlloc) (h0 : try_with_capacity_in cap a = .ok s0)
    (reqs : List NonZeroLayout) (res : List (Nat × Nat)) (s : BumpAlloc)
    (hseq : allocSeq s0 reqs = .ok (res, s)) (l : NonZeroLayout) :
    alloc (reset s) l = alloc s0 l := by
  obtain ⟨hdata, hlay, -, -, -⟩ := allocSeq_facts reqs s0 res s hseq
  have hs0 : s0.ptr = s0.data + s0.layout.size := by
    simp only [try_with_capacity_in] at h0
    split_ifs at h0 with hc
    rcases ha : a ⟨cap, 1⟩ with e | d
    · rw [ha] at h0
      simp at h0
    · rw [ha] at h0
      obtain rfl : ({ data := d, layout := ⟨cap, 1⟩, ptr := d + cap } : BumpAlloc) = s0 := by
        simpa using h0
      rfl
  have hreset : reset s = s0 := by
    obtain ⟨d0, l0, p0⟩ := s0
    obtain ⟨d1, l1, p1⟩ := s
    simp only [reset, reset_unchecked] at *
    simp_all
  rw [hreset]

/-- Witness for C7 at a concrete input: a 16-byte arena based at 100; one
4-byte allocation moves the cursor to 112; after `reset`, allocating with
the same layout gives the same result as the very first allocation. -/
theorem reset_replays_first_alloc_witness :
    alloc (reset ⟨100, ⟨16, 1⟩, 112⟩) ⟨4, 1⟩ = alloc ⟨100, ⟨16, 1⟩, 116⟩ ⟨4, 1⟩ :=
  reset_replays_first_alloc 16 (fun _ => .ok 100) ⟨100, ⟨16, 1⟩, 116⟩ rfl
    [⟨4, 1⟩] [(112, 4)] ⟨100, ⟨16, 1⟩, 112⟩ rfl ⟨4, 1⟩
